import Mathlib

/-! Box breathing timer (`src/app.js`): the session state machine.

A shallow embedding of the mutable `state` object of `src/app.js` and of the
functions that write to it (`togglePlay`, `resetToStart`, `toggleSound`,
`handleTimeLimitChange`, `startWithPreset` and the callback registered by
`startInterval`), followed by theorems about them.

Modelling conventions.

* The `state` object is the record `State`; every handler is a function
  `State → State` returning the object after the handler has run.
* JavaScript numbers are modelled as exact integers: `count` and `totalTime`
  are natural numbers (they start at `0` and are only incremented or reduced
  modulo 4), `countdown` is an `Int` because the callback subtracts from it.
* JavaScript strings are modelled by `String`; `parseInt` returns `Option Int`,
  `none` standing for `NaN`, which makes every comparison false, and
  `numberToString` is `toString()` on these integers, with its exponent form
  from `10^21` on.
* `playTone`, `requestWakeLock`, `releaseWakeLock`, `setInterval`,
  `clearInterval` and the DOM writes of `render` do not write to `state` and
  are left out; what `render` decides from `state` (which handlers it binds)
  is modelled by `renderBindings`.
-/

namespace BoxBreathing

/-- The `state` object (`src/app.js`, lines 5-14). -/
structure State where
  isPlaying : Bool
  count : Nat
  countdown : Int
  totalTime : Nat
  soundEnabled : Bool
  timeLimit : String
  sessionComplete : Bool
  timeLimitReached : Bool
  deriving DecidableEq

/-- The initial value of `state` (lines 5-14). -/
def initialState : State :=
  { isPlaying := false
    count := 0
    countdown := 4
    totalTime := 0
    soundEnabled := false
    timeLimit := ""
    sessionComplete := false
    timeLimitReached := false }

/-- Function `getInstruction` (lines 31-39): the label of phase `count`. -/
def getInstruction (count : Nat) : String :=
  match count with
  | 0 => "Inhale"
  | 1 => "Hold"
  | 2 => "Exhale"
  | 3 => "Wait"
  | _ => ""

/-! ## `parseInt` on strings -/

/-- Code points that `parseInt` skips at the start of its argument
(ECMAScript `WhiteSpace` and `LineTerminator`). -/
def isStrWhiteSpaceChar (c : Char) : Bool :=
  let v := c.toNat
  v == 0x9 || v == 0xA || v == 0xB || v == 0xC || v == 0xD || v == 0x20 || v == 0xA0
    || v == 0x1680 || (0x2000 ≤ v && v ≤ 0x200A) || v == 0x2028 || v == 0x2029
    || v == 0x202F || v == 0x205F || v == 0x3000 || v == 0xFEFF

/-- Value of `c` as a digit of radix `r` (`0-9`, then `a-z` or `A-Z` for ten and up). -/
def radixDigit (r : Nat) (c : Char) : Option Nat :=
  let v := c.toNat
  let d : Option Nat :=
    if 48 ≤ v ∧ v ≤ 57 then some (v - 48)
    else if 97 ≤ v ∧ v ≤ 122 then some (v - 87)
    else if 65 ≤ v ∧ v ≤ 90 then some (v - 55)
    else none
  match d with
  | some k => if k < r then some k else none
  | none => none

/-- The digit values of the longest prefix made of radix-`r` digits. -/
def digitPrefix (r : Nat) : List Char → List Nat
  | [] => []
  | c :: cs =>
    match radixDigit r c with
    | some d => d :: digitPrefix r cs
    | none => []

/-- The number written by a list of digit values in radix `r`. -/
def digitsValue (r : Nat) (ds : List Nat) : Nat :=
  ds.foldl (fun acc d => acc * r + d) 0

/-- Leading sign of the argument of `parseInt`. -/
def splitSign : List Char → Int × List Char
  | '-' :: t => (-1, t)
  | '+' :: t => (1, t)
  | s => (1, s)

/-- Radix selection of `parseInt` called without a radix: a `0x` or `0X` prefix
selects 16 and is removed, anything else is read in radix 10. -/
def splitRadix : List Char → Nat × List Char
  | '0' :: 'x' :: t => (16, t)
  | '0' :: 'X' :: t => (16, t)
  | s => (10, s)

/-- JavaScript `parseInt(str)` with no radix argument; `none` stands for `NaN`. -/
def parseInt (str : String) : Option Int :=
  let s := str.data.dropWhile isStrWhiteSpaceChar
  let (sign, s) := splitSign s
  let (r, s) := splitRadix s
  match digitPrefix r s with
  | [] => none
  | d :: ds => some (sign * (digitsValue r (d :: ds) : Int))

/-! ## Event handlers -/

/-- Function `togglePlay` (lines 98-115): flip `isPlaying`; when that starts a
session, reset the session fields. -/
def togglePlay (s : State) : State :=
  let s := { s with isPlaying := !s.isPlaying }
  if s.isPlaying then
    { s with
      totalTime := 0
      countdown := 4
      count := 0
      sessionComplete := false
      timeLimitReached := false }
  else
    s

/-- Function `resetToStart` (lines 117-128). -/
def resetToStart (s : State) : State :=
  { s with
    isPlaying := false
    totalTime := 0
    countdown := 4
    count := 0
    sessionComplete := false
    timeLimit := ""
    timeLimitReached := false }

/-- Function `toggleSound` (lines 130-133). -/
def toggleSound (s : State) : State :=
  { s with soundEnabled := !s.soundEnabled }

/-- The replacement `value.replace(/[^0-9]/g, '')` of line 137: scan the
characters from left to right; a character matched by `[^0-9]` is replaced by
the empty string, any other character is copied. -/
def stripNonDigits : List Char → List Char
  | [] => []
  | c :: cs =>
    if '0' ≤ c ∧ c ≤ '9' then c :: stripNonDigits cs else stripNonDigits cs

/-- Function `handleTimeLimitChange` (lines 135-138); `value` is `e.target.value`. -/
def handleTimeLimitChange (value : String) (s : State) : State :=
  { s with timeLimit := String.mk (stripNonDigits value.data) }

/-- The digits of a decimal numeral without its trailing zeros. -/
def stripTrailingZeros (ds : List Char) : List Char :=
  (ds.reverse.dropWhile (fun c => c == '0')).reverse

/-- The method `toString()` of a number whose value is the natural number `x`
(ECMAScript `Number::toString`, radix 10, on exact integers). With `n` the
number of decimal digits of `x` and `s` its digits without trailing zeros: for
`n ≤ 21`, that is `x < 10^21`, the result is `s` followed by the zeros, the
decimal numeral of `x`; for `n > 21` it is the exponent form, the first digit
of `s`, then `.` and the other digits of `s` if there are any, then `e+` and
the decimal numeral of `n - 1`. -/
def numberToString (x : Nat) : String :=
  if x < 10 ^ 21 then
    Nat.repr x
  else
    match stripTrailingZeros (Nat.toDigits 10 x) with
    | [] => Nat.repr x
    | d :: frac =>
      String.mk
        (d :: (if frac = [] then [] else '.' :: frac) ++ ['e', '+']
          ++ Nat.toDigits 10 ((Nat.toDigits 10 x).length - 1))

/-- Function `startWithPreset` (lines 140-153); the limit stored is
`minutes.toString()`. -/
def startWithPreset (minutes : Nat) (s : State) : State :=
  { s with
    timeLimit := numberToString minutes
    isPlaying := true
    totalTime := 0
    countdown := 4
    count := 0
    sessionComplete := false
    timeLimitReached := false }

/-- The time-limit check of the interval callback (lines 161-167). -/
def checkTimeLimit (s : State) : State :=
  if s.timeLimit ≠ "" ∧ s.timeLimitReached = false then
    match parseInt s.timeLimit with
    | some limit =>
      if limit * 60 ≤ (s.totalTime : Int) then { s with timeLimitReached := true } else s
    | none => s
  else
    s

/-- The countdown and phase step of the interval callback (lines 169-187). -/
def stepCountdown (s : State) : State :=
  if s.countdown = 1 then
    let s := { s with count := (s.count + 1) % 4, countdown := 4 }
    if s.count = 3 ∧ s.timeLimitReached = true then
      { s with sessionComplete := true, isPlaying := false }
    else
      s
  else
    { s with countdown := s.countdown - 1 }

/-- One run of the callback that `startInterval` registers (lines 157-190). -/
def tick (s : State) : State :=
  stepCountdown (checkTimeLimit { s with totalTime := s.totalTime + 1 })

/-- The state after `n` runs of the interval callback. -/
def ticks : Nat → State → State
  | 0, s => s
  | n + 1, s => tick (ticks n s)

/-! ## Handler binding in `render` -/

/-- The handlers that `render` can attach to a control (lines 277-307). -/
inductive Handler where
  | togglePlay
  | resetToStart
  | toggleSound
  | handleTimeLimitChange
  | startWithPreset (minutes : Nat)
  deriving DecidableEq

/-- The handlers that `render` binds for the state it draws (lines 277-307):
`toggle-play` unless the session is complete, `reset` when it is complete, and
the settings and preset controls when the session is neither playing nor
complete. -/
def renderBindings (s : State) : List Handler :=
  (if !s.sessionComplete then [Handler.togglePlay] else [])
    ++ (if s.sessionComplete then [Handler.resetToStart] else [])
    ++ (if !s.isPlaying && !s.sessionComplete then
          [Handler.toggleSound, Handler.handleTimeLimitChange, Handler.startWithPreset 2,
            Handler.startWithPreset 5, Handler.startWithPreset 10]
        else [])

/-! ## Sequences of operations -/

/-- The operations that write to `state`: the five handlers, with their
arguments, and one run of the interval callback. -/
inductive Op where
  | togglePlay
  | startWithPreset (minutes : Nat)
  | resetToStart
  | toggleSound
  | handleTimeLimitChange (value : String)
  | tick
  deriving DecidableEq

/-- The effect of one operation on `state`. -/
def runOp (s : State) : Op → State
  | Op.togglePlay => togglePlay s
  | Op.startWithPreset minutes => startWithPreset minutes s
  | Op.resetToStart => resetToStart s
  | Op.toggleSound => toggleSound s
  | Op.handleTimeLimitChange value => handleTimeLimitChange value s
  | Op.tick => tick s

/-- The effect of a sequence of operations, the first of the list first. -/
def runOps (ops : List Op) (s : State) : State :=
  ops.foldl runOp s

/-! ## Auxiliary definitions for the proofs -/

/-- A decimal digit character, by code point. -/
def IsDecDigit (c : Char) : Prop := 48 ≤ c.toNat ∧ c.toNat ≤ 57

instance (c : Char) : Decidable (IsDecDigit c) := by unfold IsDecDigit; infer_instance

/-- The state of a session that has run for `n` ticks without completing, with
the time-limit flag `reached`; the fields that a session does not touch are
those of `s`. -/
def running (s : State) (n : Nat) (reached : Bool) : State :=
  { s with
    isPlaying := true
    count := (n / 4) % 4
    countdown := 4 - ((n % 4 : Nat) : Int)
    totalTime := n
    sessionComplete := false
    timeLimitReached := reached }

/-- The state in which a session completes on tick `n`. -/
def completed (s : State) (n : Nat) : State :=
  { s with
    isPlaying := false
    count := 3
    countdown := 4
    totalTime := n
    sessionComplete := true
    timeLimitReached := true }

/-! ## Decimal strings and `parseInt` -/

theorem char_le_iff (a b : Char) : a ≤ b ↔ a.toNat ≤ b.toNat := by
  show a.val ≤ b.val ↔ _
  rw [UInt32.le_def]
  rfl

theorem isDecDigit_iff (c : Char) : ('0' ≤ c ∧ c ≤ '9') ↔ IsDecDigit c := by
  rw [char_le_iff, char_le_iff]
  rfl

theorem radixDigit_ten_of_digit {c : Char} (h : IsDecDigit c) :
    radixDigit 10 c = some (c.toNat - 48) := by
  obtain ⟨h1, h2⟩ := h
  have h3 : c.toNat - 48 < 10 := by omega
  simp [radixDigit, h1, h2, h3]

theorem not_whiteSpace_of_digit {c : Char} (h : IsDecDigit c) :
    isStrWhiteSpaceChar c = false := by
  obtain ⟨h1, h2⟩ := h
  simp only [isStrWhiteSpaceChar, Bool.or_eq_false_iff, Bool.and_eq_false_iff,
    beq_eq_false_iff_ne, decide_eq_false_iff_not]
  omega

theorem digitPrefix_of_digits (l : List Char) (h : ∀ c ∈ l, IsDecDigit c) :
    digitPrefix 10 l = l.map (fun c => c.toNat - 48) := by
  induction l with
  | nil => rfl
  | cons c cs ih =>
    have hc : IsDecDigit c := h c (List.mem_cons_self c cs)
    have hcs : ∀ d ∈ cs, IsDecDigit d := fun d hd => h d (List.mem_cons_of_mem c hd)
    simp [digitPrefix, radixDigit_ten_of_digit hc, ih hcs]

theorem splitSign_of_digit {c : Char} (cs : List Char) (h : IsDecDigit c) :
    splitSign (c :: cs) = (1, c :: cs) := by
  have hm : c ≠ '-' := by
    intro e; subst e; revert h; decide
  have hp : c ≠ '+' := by
    intro e; subst e; revert h; decide
  unfold splitSign
  split
  · rename_i t e
    exact absurd (List.cons.inj e).1 hm
  · rename_i t e
    exact absurd (List.cons.inj e).1 hp
  · rfl

theorem splitRadix_of_digits {l : List Char} (h : ∀ c ∈ l, IsDecDigit c) :
    splitRadix l = (10, l) := by
  unfold splitRadix
  split
  · rename_i t
    exact absurd (h 'x' (by simp)) (by decide)
  · rename_i t
    exact absurd (h 'X' (by simp)) (by decide)
  · rfl

/-- On a non-empty string of decimal digits `parseInt` returns the number it
writes in base ten. -/
theorem parseInt_of_digits (l : List Char) (hne : l ≠ []) (h : ∀ c ∈ l, IsDecDigit c) :
    parseInt (String.mk l) = some ((digitsValue 10 (l.map (fun c => c.toNat - 48)) : Nat) : Int) := by
  cases l with
  | nil => exact absurd rfl hne
  | cons c cs =>
    have hc : IsDecDigit c := h c (List.mem_cons_self c cs)
    have hdrop : List.dropWhile isStrWhiteSpaceChar (c :: cs) = c :: cs := by
      simp [List.dropWhile, not_whiteSpace_of_digit hc]
    simp only [parseInt, hdrop, splitSign_of_digit cs hc, splitRadix_of_digits h,
      digitPrefix_of_digits (c :: cs) h, List.map_cons, one_mul]

theorem digitChar_isDecDigit {d : Nat} (h : d < 10) :
    IsDecDigit (Nat.digitChar d) ∧ (Nat.digitChar d).toNat - 48 = d := by
  interval_cases d <;> decide

theorem digitsValue_append_singleton (r : Nat) (ds : List Nat) (d : Nat) :
    digitsValue r (ds ++ [d]) = digitsValue r ds * r + d := by
  simp [digitsValue, List.foldl_append]

/-- With enough fuel, `Nat.toDigitsCore 10` puts in front of the accumulator a
non-empty list of decimal digits that writes `n`. -/
theorem toDigitsCore_ten_spec (fuel : Nat) :
    ∀ (n : Nat) (acc : List Char), n < fuel →
      ∃ l : List Char, Nat.toDigitsCore 10 fuel n acc = l ++ acc ∧ l ≠ [] ∧
        (∀ c ∈ l, IsDecDigit c) ∧ digitsValue 10 (l.map (fun c => c.toNat - 48)) = n := by
  induction fuel with
  | zero => intro n acc h; omega
  | succ fuel ih =>
    intro n acc hn
    have hd := digitChar_isDecDigit (Nat.mod_lt n (by decide : 0 < 10))
    by_cases hq : n / 10 = 0
    · refine ⟨[Nat.digitChar (n % 10)], ?_, by simp, ?_, ?_⟩
      · simp [Nat.toDigitsCore, hq]
      · intro c hc
        rw [List.mem_singleton] at hc
        rw [hc]
        exact hd.1
      · have hlt : n < 10 := by omega
        simp only [List.map_cons, List.map_nil, hd.2]
        simp [digitsValue, Nat.mod_eq_of_lt hlt]
    · have hlt : n / 10 < fuel := by omega
      obtain ⟨l, hl, _, hdig, hval⟩ := ih (n / 10) (Nat.digitChar (n % 10) :: acc) hlt
      refine ⟨l ++ [Nat.digitChar (n % 10)], ?_, by simp, ?_, ?_⟩
      · simp [Nat.toDigitsCore, hq, hl]
      · intro c hc
        rcases List.mem_append.mp hc with hc | hc
        · exact hdig c hc
        · rw [List.mem_singleton] at hc
          rw [hc]
          exact hd.1
      · rw [List.map_append, List.map_cons, List.map_nil, digitsValue_append_singleton, hval,
          hd.2]
        omega

/-- The decimal string of `m` is a non-empty string of decimal digits writing `m`. -/
theorem repr_spec (m : Nat) :
    ∃ l : List Char, Nat.repr m = String.mk l ∧ l ≠ [] ∧ (∀ c ∈ l, IsDecDigit c) ∧
      digitsValue 10 (l.map (fun c => c.toNat - 48)) = m := by
  obtain ⟨l, hl, hne, hdig, hval⟩ := toDigitsCore_ten_spec (m + 1) m [] (Nat.lt_succ_self m)
  refine ⟨l, ?_, hne, hdig, hval⟩
  simp [Nat.repr, Nat.toDigits, hl, List.asString]

/-- Reading back the decimal string of `m` with `parseInt` gives `m`. -/
theorem parseInt_repr (m : Nat) : parseInt (Nat.repr m) = some (m : Int) := by
  obtain ⟨l, hl, hne, hdig, hval⟩ := repr_spec m
  rw [hl, parseInt_of_digits l hne hdig, hval]

theorem repr_ne_empty (m : Nat) : Nat.repr m ≠ "" := by
  obtain ⟨l, hl, hne, _, _⟩ := repr_spec m
  rw [hl]
  intro h
  exact hne (congrArg String.data h)

/-- Below `10^21` the method `toString()` gives the decimal numeral. -/
theorem numberToString_of_lt {m : Nat} (h : m < 10 ^ 21) : numberToString m = Nat.repr m := by
  unfold numberToString
  rw [if_pos h]

theorem parseInt_numberToString {m : Nat} (h : m < 10 ^ 21) :
    parseInt (numberToString m) = some (m : Int) := by
  rw [numberToString_of_lt h]
  exact parseInt_repr m

theorem numberToString_ne_empty {m : Nat} (h : m < 10 ^ 21) : numberToString m ≠ "" := by
  rw [numberToString_of_lt h]
  exact repr_ne_empty m

theorem one_lt_exponent_bound : 1 < 10 ^ 21 := by
  decide

/-- At `10^21` the method `toString()` switches to the exponent form. -/
theorem numberToString_exponent : numberToString (10 ^ 21) = "1e+21" := by
  decide

/-- The function `parseInt` reads the exponent form up to its first non-digit. -/
theorem parseInt_exponent : parseInt "1e+21" = some 1 := by
  decide

/-! ## One tick of a running session -/

theorem checkTimeLimit_empty (s : State) (h : s.timeLimit = "") : checkTimeLimit s = s := by
  simp [checkTimeLimit, h]

theorem checkTimeLimit_parsed (s : State) (m : Nat) (hne : s.timeLimit ≠ "")
    (hp : parseInt s.timeLimit = some (m : Int)) :
    checkTimeLimit s =
      { s with timeLimitReached := s.timeLimitReached || decide (60 * m ≤ s.totalTime) } := by
  have hiff : ((m : Int) * 60 ≤ (s.totalTime : Int)) ↔ 60 * m ≤ s.totalTime := by
    constructor <;> intro h <;> omega
  cases hr : s.timeLimitReached
  · by_cases hle : 60 * m ≤ s.totalTime
    · simp [checkTimeLimit, hne, hr, hp, hiff, hle]
    · simp [checkTimeLimit, hne, hr, hp, hiff, hle]
      cases s
      simp_all
  · simp [checkTimeLimit, hr]
    cases s
    simp_all

/-- One tick of a running session, given the value `r2` that the time-limit
check leaves in `timeLimitReached`. -/
theorem stepCountdown_running (s : State) (n : Nat) (r2 : Bool) :
    stepCountdown { running s n r2 with totalTime := n + 1 } =
      if (n + 1) % 16 = 12 ∧ r2 = true then completed s (n + 1) else running s (n + 1) r2 := by
  have h4 : n % 4 < 4 := Nat.mod_lt n (by decide)
  by_cases h3 : n % 4 = 3
  · have hcd : (4 : Int) - ((n % 4 : Nat) : Int) = 1 := by omega
    have hcount : ((n / 4) % 4 + 1) % 4 = ((n + 1) / 4) % 4 := by omega
    have hcd2 : (4 : Int) - (((n + 1) % 4 : Nat) : Int) = 4 := by omega
    by_cases h12 : (n + 1) % 16 = 12
    · have hc3 : ((n + 1) / 4) % 4 = 3 := by omega
      cases r2
      · simp only [stepCountdown, running, completed, hcd, hcount, hc3, h12, hcd2]
        simp
      · simp only [stepCountdown, running, completed, hcd, hcount, hc3, h12, hcd2]
        simp
    · have hc3 : ((n + 1) / 4) % 4 ≠ 3 := by omega
      simp only [stepCountdown, running, completed, hcd, hcount, hc3, h12, hcd2]
      simp
  · have hcd : (4 : Int) - ((n % 4 : Nat) : Int) ≠ 1 := by omega
    have h12 : (n + 1) % 16 ≠ 12 := by omega
    have hcount : (n / 4) % 4 = ((n + 1) / 4) % 4 := by omega
    have hcd2 : (4 : Int) - ((n % 4 : Nat) : Int) - 1 = 4 - (((n + 1) % 4 : Nat) : Int) := by
      omega
    simp only [stepCountdown, running, hcd, h12, hcount, hcd2]
    simp

/-- The countdown step leaves the limit, the elapsed time, the time-limit flag
and the sound preference alone. -/
theorem stepCountdown_frame (x : State) :
    (stepCountdown x).timeLimit = x.timeLimit ∧ (stepCountdown x).totalTime = x.totalTime ∧
      (stepCountdown x).timeLimitReached = x.timeLimitReached ∧
      (stepCountdown x).soundEnabled = x.soundEnabled := by
  unfold stepCountdown
  dsimp only
  split_ifs <;> exact ⟨rfl, rfl, rfl, rfl⟩

/-- The time-limit check writes to `timeLimitReached` only. -/
theorem checkTimeLimit_frame (x : State) :
    checkTimeLimit x = { x with timeLimitReached := (checkTimeLimit x).timeLimitReached } := by
  unfold checkTimeLimit
  split_ifs
  · split
    · split_ifs <;> rfl
    · rfl
  · rfl

theorem tick_running_unlimited (s : State) (n : Nat) (h : s.timeLimit = "") :
    tick (running s n false) = running s (n + 1) false := by
  have hc : checkTimeLimit { running s n false with totalTime := n + 1 } =
      { running s n false with totalTime := n + 1 } :=
    checkTimeLimit_empty _ h
  have hs := stepCountdown_running s n false
  simp only [tick]
  rw [show ({ running s n false with totalTime := (running s n false).totalTime + 1 } : State)
      = { running s n false with totalTime := n + 1 } from rfl, hc, hs]
  simp

theorem tick_running_limited (s : State) (n m : Nat) (r : Bool) (hne : s.timeLimit ≠ "")
    (hp : parseInt s.timeLimit = some (m : Int)) :
    tick (running s n r) =
      if (n + 1) % 16 = 12 ∧ (r || decide (60 * m ≤ n + 1)) = true then completed s (n + 1)
      else running s (n + 1) (r || decide (60 * m ≤ n + 1)) := by
  have hc : checkTimeLimit { running s n r with totalTime := n + 1 } =
      { running s n (r || decide (60 * m ≤ n + 1)) with totalTime := n + 1 } := by
    exact checkTimeLimit_parsed { running s n r with totalTime := n + 1 } m hne hp
  simp only [tick]
  rw [show ({ running s n r with totalTime := (running s n r).totalTime + 1 } : State)
      = { running s n r with totalTime := n + 1 } from rfl, hc, stepCountdown_running]

theorem togglePlay_of_not_playing (s : State) (h : s.isPlaying = false) :
    togglePlay s = running s 0 false := by
  simp [togglePlay, running, h]

theorem startWithPreset_eq_running (m : Nat) (s : State) :
    startWithPreset m s = running { s with timeLimit := numberToString m } 0 false := by
  simp [startWithPreset, running]

/-! ## Closed forms for `n` ticks -/

theorem ticks_unlimited (s : State) (h : s.timeLimit = "") (n : Nat) :
    ticks n (running s 0 false) = running s n false := by
  induction n with
  | zero => rfl
  | succ n ih => rw [ticks, ih, tick_running_unlimited s n h]

/-- A session with limit `m ≥ 1` minutes, as long as no tick `k ≤ n` is both an
Exhale-to-Wait boundary and at or after the limit. -/
theorem ticks_limited_before (s : State) (m : Nat) (hm : 1 ≤ m) (hne : s.timeLimit ≠ "")
    (hp : parseInt s.timeLimit = some (m : Int)) (n : Nat)
    (hno : ∀ k, k ≤ n → ¬ (k % 16 = 12 ∧ 60 * m ≤ k)) :
    ticks n (running s 0 false) = running s n (decide (60 * m ≤ n)) := by
  induction n with
  | zero =>
    have h0 : ¬ (60 * m ≤ 0) := by omega
    simp [ticks, h0]
  | succ n ih =>
    have ih2 := ih (fun k hk => hno k (Nat.le_succ_of_le hk))
    have hn := hno (n + 1) (Nat.le_refl _)
    rw [ticks, ih2, tick_running_limited s n m _ hne hp]
    have hor : (decide (60 * m ≤ n) || decide (60 * m ≤ n + 1)) = decide (60 * m ≤ n + 1) := by
      by_cases h1 : 60 * m ≤ n
      · have h2 : 60 * m ≤ n + 1 := by omega
        simp [h1, h2]
      · simp [h1]
    rw [hor]
    have hcond : ¬ ((n + 1) % 16 = 12 ∧ decide (60 * m ≤ n + 1) = true) := by
      simpa using hn
    rw [if_neg hcond]

/-- A session with limit `m ≥ 1` minutes completes on tick `T`, the first
Exhale-to-Wait boundary at or after the limit. -/
theorem ticks_limited_at (s : State) (m : Nat) (hm : 1 ≤ m) (hne : s.timeLimit ≠ "")
    (hp : parseInt s.timeLimit = some (m : Int)) (T : Nat)
    (hT : 60 * m ≤ T) (h12 : T % 16 = 12)
    (hleast : ∀ t, 60 * m ≤ t → t % 16 = 12 → T ≤ t) :
    ticks T (running s 0 false) = completed s T := by
  cases T with
  | zero => omega
  | succ n =>
    have hbefore := ticks_limited_before s m hm hne hp n (fun k hk hc => by
      have := hleast k hc.2 hc.1
      omega)
    rw [ticks, hbefore, tick_running_limited s n m _ hne hp]
    have hcond : (n + 1) % 16 = 12 ∧
        (decide (60 * m ≤ n) || decide (60 * m ≤ n + 1)) = true := by
      refine ⟨h12, ?_⟩
      simp [hT]
    rw [if_pos hcond]

/-- The time-limit flag and the elapsed time after any number of ticks, for a
state whose limit reads as `m`: the callback never clears the flag. -/
theorem ticks_latch (s : State) (m : Nat) (hne : s.timeLimit ≠ "")
    (hp : parseInt s.timeLimit = some (m : Int)) (n : Nat) :
    (ticks n s).timeLimit = s.timeLimit ∧ (ticks n s).totalTime = s.totalTime + n ∧
      (ticks n s).timeLimitReached
        = (s.timeLimitReached || decide (1 ≤ n ∧ 60 * m ≤ s.totalTime + n)) := by
  induction n with
  | zero => simp [ticks]
  | succ n ih =>
    obtain ⟨h1, h2, h3⟩ := ih
    have hne2 : (ticks n s).timeLimit ≠ "" := by rw [h1]; exact hne
    have hp2 : parseInt (ticks n s).timeLimit = some (m : Int) := by rw [h1]; exact hp
    have hc := checkTimeLimit_parsed
      { ticks n s with totalTime := (ticks n s).totalTime + 1 } m hne2 hp2
    obtain ⟨g1, g2, g3, _⟩ := stepCountdown_frame (checkTimeLimit
      { ticks n s with totalTime := (ticks n s).totalTime + 1 })
    simp only [ticks, tick]
    rw [g1, g2, g3, hc]
    refine ⟨h1, by simp only [h2]; omega, ?_⟩
    simp only [h3, h2]
    cases s.timeLimitReached
    · by_cases ha : 60 * m ≤ s.totalTime + n
      · have hb : 60 * m ≤ s.totalTime + n + 1 := by omega
        by_cases hn : 1 ≤ n <;> simp [ha, hb, hn] <;> omega
      · by_cases hb : 60 * m ≤ s.totalTime + n + 1
        · simp [ha, hb]; omega
        · simp [ha, hb]; omega
    · simp

/-! ## Unlimited sessions -/

/-- C1: from any non-playing state whose `timeLimit` is the empty string,
`togglePlay` followed by `n` runs of the interval callback gives
`countdown = 4 - n mod 4`, `count = (n div 4) mod 4`, `totalTime = n`,
`sessionComplete = false` and `isPlaying = true`; so `countdown` stays in
`[1,4]`, and within the first 16 ticks the phase changes exactly on ticks 4, 8,
12 and 16 (Inhale, Hold, Exhale, Wait, Inhale), ending at `count = 0`,
`countdown = 4`. -/
theorem C1_unlimited_closed_form (s : State) (n : Nat) (hplay : s.isPlaying = false)
    (hlim : s.timeLimit = "") :
    (ticks n (togglePlay s)).countdown = 4 - ((n % 4 : Nat) : Int) ∧
      (ticks n (togglePlay s)).count = (n / 4) % 4 ∧
      (ticks n (togglePlay s)).totalTime = n ∧
      (ticks n (togglePlay s)).sessionComplete = false ∧
      (ticks n (togglePlay s)).isPlaying = true ∧
      1 ≤ (ticks n (togglePlay s)).countdown ∧ (ticks n (togglePlay s)).countdown ≤ 4 ∧
      (ticks 16 (togglePlay s)).count = 0 ∧ (ticks 16 (togglePlay s)).countdown = 4 ∧
      (ticks 16 (togglePlay s)).sessionComplete = false ∧
      (List.range' 1 16).filter
          (fun k => decide ((ticks k (togglePlay s)).count ≠ (ticks (k - 1) (togglePlay s)).count))
        = [4, 8, 12, 16] ∧
      [0, 4, 8, 12, 16].map (fun k => getInstruction (ticks k (togglePlay s)).count)
        = ["Inhale", "Hold", "Exhale", "Wait", "Inhale"] := by
  have hcf : ∀ k, ticks k (togglePlay s) = running s k false := by
    intro k
    rw [togglePlay_of_not_playing s hplay, ticks_unlimited s hlim k]
  have h4 : n % 4 < 4 := Nat.mod_lt n (by decide)
  simp only [hcf]
  refine ⟨rfl, rfl, rfl, rfl, rfl, ?_, ?_, rfl, rfl, rfl, ?_, ?_⟩
  · show (1 : Int) ≤ 4 - ((n % 4 : Nat) : Int)
    omega
  · show (4 : Int) - ((n % 4 : Nat) : Int) ≤ 4
    omega
  · simp only [running]
    rfl
  · simp only [running]
    decide

theorem C1_unlimited_closed_form_witness :
    (ticks 7 (togglePlay initialState)).countdown = 4 - ((7 % 4 : Nat) : Int) ∧
      (ticks 7 (togglePlay initialState)).count = (7 / 4) % 4 ∧
      (ticks 7 (togglePlay initialState)).totalTime = 7 ∧
      (ticks 7 (togglePlay initialState)).sessionComplete = false ∧
      (ticks 7 (togglePlay initialState)).isPlaying = true :=
  have h := C1_unlimited_closed_form initialState 7 rfl rfl
  ⟨h.1, h.2.1, h.2.2.1, h.2.2.2.1, h.2.2.2.2.1⟩

/-! ## Sessions with a time limit -/

/-- C2, as stated for every `m ≥ 1`, fails at `m = 10^21`: `toString()` gives
`"1e+21"`, which `parseInt` reads as 1, so the session started by
`startWithPreset(10^21)` is complete after 60 ticks, long before tick
`60 * 10^21`. -/
theorem C2_counterexample :
    1 ≤ 10 ^ 21 ∧ 60 < 60 * 10 ^ 21 ∧
      (startWithPreset (10 ^ 21) initialState).timeLimit = "1e+21" ∧
      (ticks 60 (startWithPreset (10 ^ 21) initialState)).sessionComplete = true ∧
      (ticks 60 (startWithPreset (10 ^ 21) initialState)).isPlaying = false := by
  have hne : ({ initialState with timeLimit := numberToString (10 ^ 21) } : State).timeLimit
      ≠ "" := by
    show numberToString (10 ^ 21) ≠ ""
    rw [numberToString_exponent]
    decide
  have hp : parseInt ({ initialState with timeLimit := numberToString (10 ^ 21) } :
      State).timeLimit = some ((1 : Nat) : Int) := by
    show parseInt (numberToString (10 ^ 21)) = some ((1 : Nat) : Int)
    rw [numberToString_exponent]
    exact parseInt_exponent
  have hrun := ticks_limited_at _ 1 (by decide) hne hp 60 (by decide) (by decide)
    (fun t h _ => by omega)
  refine ⟨by decide, by decide, numberToString_exponent, ?_, ?_⟩
  · rw [startWithPreset_eq_running, hrun]
    rfl
  · rw [startWithPreset_eq_running, hrun]
    rfl

/-- C2, amended: for `1 ≤ m < 10^21` and `T` the least `t ≥ 60 * m` with
`t mod 16 = 12`, after `startWithPreset(m)` and `n` runs of the interval
callback the session is still playing and not complete for every `n < T`, and
for `n = T` it is complete: `sessionComplete = true`, `isPlaying = false`,
`count = 3`, `countdown = 4`, `totalTime = T`. -/
theorem C2_completion_tick (m T : Nat) (s : State) (hm : 1 ≤ m) (hb : m < 10 ^ 21)
    (hT : 60 * m ≤ T ∧ T % 16 = 12 ∧ ∀ t, 60 * m ≤ t → t % 16 = 12 → T ≤ t) :
    (∀ n, n < T → (ticks n (startWithPreset m s)).sessionComplete = false ∧
        (ticks n (startWithPreset m s)).isPlaying = true) ∧
      (ticks T (startWithPreset m s)).sessionComplete = true ∧
      (ticks T (startWithPreset m s)).isPlaying = false ∧
      (ticks T (startWithPreset m s)).count = 3 ∧
      (ticks T (startWithPreset m s)).countdown = 4 ∧
      (ticks T (startWithPreset m s)).totalTime = T := by
  obtain ⟨hge, h12, hleast⟩ := hT
  have hne : ({ s with timeLimit := numberToString m } : State).timeLimit ≠ "" :=
    numberToString_ne_empty hb
  have hp : parseInt ({ s with timeLimit := numberToString m } : State).timeLimit
      = some (m : Int) :=
    parseInt_numberToString hb
  rw [startWithPreset_eq_running]
  refine ⟨?_, ?_⟩
  · intro n hn
    rw [ticks_limited_before _ m hm hne hp n (fun k hk hc => by
      have := hleast k hc.2 hc.1
      omega)]
    exact ⟨rfl, rfl⟩
  · rw [ticks_limited_at _ m hm hne hp T hge h12 hleast]
    exact ⟨rfl, rfl, rfl, rfl, rfl⟩

theorem C2_completion_tick_witness :
    ((ticks 60 (startWithPreset 1 initialState)).sessionComplete = true ∧
        (ticks 60 (startWithPreset 1 initialState)).totalTime = 60) ∧
      ((ticks 123 (startWithPreset 2 initialState)).sessionComplete = false ∧
        (ticks 124 (startWithPreset 2 initialState)).sessionComplete = true) ∧
      (ticks 300 (startWithPreset 5 initialState)).sessionComplete = true ∧
      (ticks 604 (startWithPreset 10 initialState)).sessionComplete = true :=
  have h1 := C2_completion_tick 1 60 initialState (by decide) (by decide)
    ⟨by decide, by decide, fun t h _ => by omega⟩
  have h2 := C2_completion_tick 2 124 initialState (by decide) (by decide)
    ⟨by decide, by decide, fun t h h' => by omega⟩
  have h5 := C2_completion_tick 5 300 initialState (by decide) (by decide)
    ⟨by decide, by decide, fun t h _ => by omega⟩
  have h10 := C2_completion_tick 10 604 initialState (by decide) (by decide)
    ⟨by decide, by decide, fun t h h' => by omega⟩
  ⟨⟨h1.2.1, h1.2.2.2.2.2⟩, ⟨(h2.1 123 (by decide)).1, h2.2.1⟩, h5.2.1, h10.2.1⟩

/-- C4, as stated for every `m ≥ 1`, fails for `startWithPreset` at `m = 10^21`:
the stored limit `"1e+21"` reads as 1, so `timeLimitReached` is true after 60
ticks although `60 < 60 * 10^21`. -/
theorem C4_counterexample :
    1 ≤ 10 ^ 21 ∧ ¬ (60 * 10 ^ 21 ≤ 60) ∧
      (startWithPreset (10 ^ 21) initialState).timeLimit = "1e+21" ∧
      (ticks 60 (startWithPreset (10 ^ 21) initialState)).timeLimitReached = true := by
  have hne : (running { initialState with timeLimit := numberToString (10 ^ 21) } 0
      false).timeLimit ≠ "" := by
    show numberToString (10 ^ 21) ≠ ""
    rw [numberToString_exponent]
    decide
  have hp : parseInt (running { initialState with timeLimit := numberToString (10 ^ 21) } 0
      false).timeLimit = some ((1 : Nat) : Int) := by
    show parseInt (numberToString (10 ^ 21)) = some ((1 : Nat) : Int)
    rw [numberToString_exponent]
    exact parseInt_exponent
  obtain ⟨_, _, h3⟩ := ticks_latch _ 1 hne hp 60
  refine ⟨by decide, by decide, numberToString_exponent, ?_⟩
  rw [startWithPreset_eq_running, h3]
  rfl

/-- C4, amended: for `m ≥ 1`, after a session is started with the decimal string
of `m` as its limit and the interval callback has run `n` times, `totalTime = n`
and `timeLimitReached = true` exactly when `n ≥ 60 * m`: the flag is set on the
tick where `totalTime` first reaches `60 * m` and no later tick clears it. This
holds for `togglePlay` from a non-playing state `s` holding that limit, and,
when `m < 10^21`, for `startWithPreset(m)` from any state `s2`. -/
theorem C4_time_limit_latch (m n : Nat) (s s2 : State) (hm : 1 ≤ m)
    (hplay : s.isPlaying = false) (hlim : s.timeLimit = Nat.repr m) :
    ((ticks n (togglePlay s)).timeLimitReached = true ↔ 60 * m ≤ n) ∧
      (ticks n (togglePlay s)).totalTime = n ∧
      (m < 10 ^ 21 →
        ((ticks n (startWithPreset m s2)).timeLimitReached = true ↔ 60 * m ≤ n) ∧
          (ticks n (startWithPreset m s2)).totalTime = n) := by
  have key : ∀ b : State, b.timeLimit = Nat.repr m →
      ((ticks n (running b 0 false)).timeLimitReached = true ↔ 60 * m ≤ n) ∧
        (ticks n (running b 0 false)).totalTime = n := by
    intro b hb
    have hne : (running b 0 false).timeLimit ≠ "" := by
      show b.timeLimit ≠ ""
      rw [hb]
      exact repr_ne_empty m
    have hp : parseInt (running b 0 false).timeLimit = some (m : Int) := by
      show parseInt b.timeLimit = some (m : Int)
      rw [hb]
      exact parseInt_repr m
    obtain ⟨_, h2, h3⟩ := ticks_latch (running b 0 false) m hne hp n
    refine ⟨?_, ?_⟩
    · rw [h3]
      simp only [running, Nat.zero_add, Bool.false_or, decide_eq_true_eq]
      constructor
      · intro h; exact h.2
      · intro h; exact ⟨by omega, h⟩
    · rw [h2]
      simp [running]
  rw [togglePlay_of_not_playing s hplay]
  obtain ⟨a1, a2⟩ := key s hlim
  refine ⟨a1, a2, ?_⟩
  intro hbound
  rw [startWithPreset_eq_running]
  exact key { s2 with timeLimit := numberToString m } (numberToString_of_lt hbound)

theorem C4_time_limit_latch_witness :
    ((ticks 120 (togglePlay { initialState with timeLimit := "2" })).timeLimitReached = true
        ↔ 60 * 2 ≤ 120) ∧
      ((ticks 119 (startWithPreset 2 initialState)).timeLimitReached = true ↔ 60 * 2 ≤ 119) :=
  have h := C4_time_limit_latch 2 120 { initialState with timeLimit := "2" } initialState
    (by decide) rfl (by decide)
  have h2 := C4_time_limit_latch 2 119 { initialState with timeLimit := "2" } initialState
    (by decide) rfl (by decide)
  ⟨h.1, (h2.2.2 (by decide)).1⟩

/-! ## Start, sanitisation and reset -/

/-- C8, as stated for every `m > 0`, fails at `m = 10^21`: `startWithPreset`
stores `"1e+21"`, not the decimal string of `10^21`, and the stored limit reads
back as 1. -/
theorem C8_counterexample :
    0 < 10 ^ 21 ∧ initialState.isPlaying = false ∧
      (startWithPreset (10 ^ 21) initialState).timeLimit = "1e+21" ∧
      startWithPreset (10 ^ 21) initialState
        ≠ togglePlay { initialState with timeLimit := Nat.repr (10 ^ 21) } ∧
      parseInt (startWithPreset (10 ^ 21) initialState).timeLimit = some 1 := by
  have ht : (startWithPreset (10 ^ 21) initialState).timeLimit = "1e+21" :=
    numberToString_exponent
  refine ⟨by decide, rfl, ht, ?_, ?_⟩
  · intro h
    have h2 := congrArg State.timeLimit h
    rw [ht] at h2
    revert h2
    decide
  · rw [ht]
    exact parseInt_exponent

/-- C8, amended: for every state `s` with `isPlaying = false`, `togglePlay` gives
`s` with `isPlaying = true`, `count = 0`, `countdown = 4`, `totalTime = 0`,
`sessionComplete = false`, `timeLimitReached = false` and `timeLimit`,
`soundEnabled` unchanged; and for `0 < m < 10^21`, `startWithPreset(m)` on `s`
equals `togglePlay` on `s` with `timeLimit` replaced by the decimal string of
`m`, a limit that reads back as `m`. -/
theorem C8_start_postcondition (s : State) (m : Nat) (hplay : s.isPlaying = false)
    (hm : 0 < m) (hb : m < 10 ^ 21) :
    togglePlay s =
        { isPlaying := true, count := 0, countdown := 4, totalTime := 0,
          soundEnabled := s.soundEnabled, timeLimit := s.timeLimit,
          sessionComplete := false, timeLimitReached := false } ∧
      startWithPreset m s = togglePlay { s with timeLimit := Nat.repr m } ∧
      parseInt (startWithPreset m s).timeLimit = some (m : Int) := by
  refine ⟨?_, ?_, parseInt_numberToString hb⟩
  · simp [togglePlay, hplay]
  · simp [togglePlay, startWithPreset, hplay, numberToString_of_lt hb]

theorem C8_start_postcondition_witness :
    togglePlay
          { isPlaying := false, count := 1, countdown := 2, totalTime := 6,
            soundEnabled := true, timeLimit := "3", sessionComplete := false,
            timeLimitReached := false } =
        { isPlaying := true, count := 0, countdown := 4, totalTime := 0,
          soundEnabled := true, timeLimit := "3", sessionComplete := false,
          timeLimitReached := false } ∧
      startWithPreset 5
          { isPlaying := false, count := 1, countdown := 2, totalTime := 6,
            soundEnabled := true, timeLimit := "3", sessionComplete := false,
            timeLimitReached := false } =
        togglePlay
          { isPlaying := false, count := 1, countdown := 2, totalTime := 6,
            soundEnabled := true, timeLimit := Nat.repr 5, sessionComplete := false,
            timeLimitReached := false } :=
  have h := C8_start_postcondition
    { isPlaying := false, count := 1, countdown := 2, totalTime := 6,
      soundEnabled := true, timeLimit := "3", sessionComplete := false,
      timeLimitReached := false } 5 rfl (by decide) (by decide)
  ⟨h.1, h.2.1⟩

theorem stripNonDigits_eq_filter (l : List Char) :
    stripNonDigits l = l.filter (fun c => decide ('0' ≤ c ∧ c ≤ '9')) := by
  induction l with
  | nil => rfl
  | cons c cs ih =>
    by_cases h : '0' ≤ c ∧ c ≤ '9'
    · simp only [stripNonDigits, if_pos h, ih]
      rw [List.filter_cons_of_pos (by simpa using h)]
    · simp only [stripNonDigits, if_neg h, ih]
      rw [List.filter_cons_of_neg (by simpa using h)]

/-- C9: `handleTimeLimitChange` with value `raw` changes `timeLimit` only, to the
characters `'0'..'9'` of `raw` in their original order: the stored string holds
digits only, is a subsequence of `raw`, keeps every digit of `raw` as often as
it occurs, is empty exactly when `raw` has no digit, is left alone by a second
sanitisation, and `"12a3b"` is stored as `"123"`. -/
theorem C9_time_limit_sanitised (raw : String) (s : State) :
    handleTimeLimitChange raw s =
        { s with
          timeLimit := String.mk (raw.data.filter (fun c => decide ('0' ≤ c ∧ c ≤ '9'))) } ∧
      (∀ c ∈ (handleTimeLimitChange raw s).timeLimit.data, '0' ≤ c ∧ c ≤ '9') ∧
      List.Sublist (handleTimeLimitChange raw s).timeLimit.data raw.data ∧
      (∀ c, ('0' ≤ c ∧ c ≤ '9') →
        (handleTimeLimitChange raw s).timeLimit.data.count c = raw.data.count c) ∧
      ((handleTimeLimitChange raw s).timeLimit = "" ↔ ∀ c ∈ raw.data, ¬ ('0' ≤ c ∧ c ≤ '9')) ∧
      handleTimeLimitChange (handleTimeLimitChange raw s).timeLimit (handleTimeLimitChange raw s)
        = handleTimeLimitChange raw s ∧
      (handleTimeLimitChange "12a3b" s).timeLimit = "123" ∧
      (handleTimeLimitChange raw s).isPlaying = s.isPlaying ∧
      (handleTimeLimitChange raw s).count = s.count ∧
      (handleTimeLimitChange raw s).countdown = s.countdown ∧
      (handleTimeLimitChange raw s).totalTime = s.totalTime ∧
      (handleTimeLimitChange raw s).timeLimitReached = s.timeLimitReached ∧
      (handleTimeLimitChange raw s).sessionComplete = s.sessionComplete ∧
      (handleTimeLimitChange raw s).soundEnabled = s.soundEnabled := by
  have hdata : (handleTimeLimitChange raw s).timeLimit.data
      = raw.data.filter (fun c => decide ('0' ≤ c ∧ c ≤ '9')) := by
    simp [handleTimeLimitChange, stripNonDigits_eq_filter]
  refine ⟨?_, ?_, ?_, ?_, ?_, ?_, ?_, rfl, rfl, rfl, rfl, rfl, rfl, rfl⟩
  · simp [handleTimeLimitChange, stripNonDigits_eq_filter]
  · intro c hc
    rw [hdata] at hc
    simpa using (List.mem_filter.mp hc).2
  · rw [hdata]
    exact List.filter_sublist raw.data
  · intro c hc
    rw [hdata, List.count_filter]
    simpa using hc
  · rw [String.ext_iff, hdata]
    show List.filter _ raw.data = [] ↔ _
    rw [List.filter_eq_nil_iff]
    simp
  · simp only [handleTimeLimitChange, stripNonDigits_eq_filter, List.filter_filter, Bool.and_self]
  · simp only [handleTimeLimitChange]
    decide

/-- C10: for every state `s`, `resetToStart` gives `isPlaying = false`,
`count = 0`, `countdown = 4`, `totalTime = 0`, `sessionComplete = false`,
`timeLimitReached = false` and the empty `timeLimit`: the initial state in
every field except `soundEnabled`, which keeps its value from `s`. -/
theorem C10_reset_postcondition (s : State) :
    resetToStart s = { initialState with soundEnabled := s.soundEnabled } ∧
      (resetToStart s).isPlaying = false ∧ (resetToStart s).count = 0 ∧
      (resetToStart s).countdown = 4 ∧ (resetToStart s).totalTime = 0 ∧
      (resetToStart s).sessionComplete = false ∧
      (resetToStart s).timeLimitReached = false ∧ (resetToStart s).timeLimit = "" ∧
      (resetToStart s).soundEnabled = s.soundEnabled :=
  ⟨rfl, rfl, rfl, rfl, rfl, rfl, rfl, rfl, rfl⟩

/-! ## Invariants of the reachable states -/

theorem checkTimeLimit_fields (x : State) :
    (checkTimeLimit x).isPlaying = x.isPlaying ∧ (checkTimeLimit x).count = x.count ∧
      (checkTimeLimit x).countdown = x.countdown ∧
      (checkTimeLimit x).sessionComplete = x.sessionComplete ∧
      (checkTimeLimit x).totalTime = x.totalTime ∧
      (checkTimeLimit x).timeLimit = x.timeLimit := by
  rw [checkTimeLimit_frame x]
  exact ⟨rfl, rfl, rfl, rfl, rfl, rfl⟩

/-- The range of `countdown` and `count` is kept by every operation. -/
theorem runOp_range (s : State) (op : Op)
    (h : 1 ≤ s.countdown ∧ s.countdown ≤ 4 ∧ s.count < 4) :
    1 ≤ (runOp s op).countdown ∧ (runOp s op).countdown ≤ 4 ∧ (runOp s op).count < 4 := by
  obtain ⟨h1, h2, h3⟩ := h
  cases op with
  | togglePlay =>
    simp only [runOp, togglePlay]
    split_ifs
    · exact ⟨(by decide : (1 : Int) ≤ 4), (by decide : (4 : Int) ≤ 4), (by decide : 0 < 4)⟩
    · exact ⟨h1, h2, h3⟩
  | startWithPreset minutes => exact ⟨(by decide : (1 : Int) ≤ 4), (by decide : (4 : Int) ≤ 4), (by decide : 0 < 4)⟩
  | resetToStart => exact ⟨(by decide : (1 : Int) ≤ 4), (by decide : (4 : Int) ≤ 4), (by decide : 0 < 4)⟩
  | toggleSound => exact ⟨h1, h2, h3⟩
  | handleTimeLimitChange value => exact ⟨h1, h2, h3⟩
  | tick =>
    obtain ⟨_, c2, c3, _, _, _⟩ := checkTimeLimit_fields { s with totalTime := s.totalTime + 1 }
    have e2 : (checkTimeLimit { s with totalTime := s.totalTime + 1 }).count = s.count := c2
    have e3 : (checkTimeLimit { s with totalTime := s.totalTime + 1 }).countdown = s.countdown :=
      c3
    simp only [runOp, tick, stepCountdown, e2, e3]
    have hmod : (s.count + 1) % 4 < 4 := Nat.mod_lt _ (by decide)
    split_ifs
    · exact ⟨(by decide : (1 : Int) ≤ 4), (by decide : (4 : Int) ≤ 4), hmod⟩
    · exact ⟨(by decide : (1 : Int) ≤ 4), (by decide : (4 : Int) ≤ 4), hmod⟩
    · refine ⟨?_, ?_, h3⟩
      · show 1 ≤ s.countdown - 1
        omega
      · show s.countdown - 1 ≤ 4
        omega

/-- Every operation keeps "complete implies not playing". -/
theorem runOp_complete_stopped (s : State) (op : Op)
    (h : s.sessionComplete = true → s.isPlaying = false) :
    (runOp s op).sessionComplete = true → (runOp s op).isPlaying = false := by
  cases op with
  | togglePlay =>
    simp only [runOp, togglePlay]
    split_ifs with hp
    · intro hc
      exact hc.elim
    · intro _
      simpa using hp
  | startWithPreset minutes =>
    intro hc
    exact absurd hc Bool.false_ne_true
  | resetToStart => intro _; rfl
  | toggleSound => exact h
  | handleTimeLimitChange value => exact h
  | tick =>
    obtain ⟨c1, _, _, c4, _, _⟩ := checkTimeLimit_fields { s with totalTime := s.totalTime + 1 }
    have e1 : (checkTimeLimit { s with totalTime := s.totalTime + 1 }).isPlaying = s.isPlaying :=
      c1
    have e4 : (checkTimeLimit { s with totalTime := s.totalTime + 1 }).sessionComplete
        = s.sessionComplete := c4
    simp only [runOp, tick, stepCountdown]
    split_ifs
    · intro _; rfl
    · intro hc
      have hc2 : s.sessionComplete = true := by rw [← e4]; exact hc
      show (checkTimeLimit { s with totalTime := s.totalTime + 1 }).isPlaying = false
      rw [e1]
      exact h hc2
    · intro hc
      have hc2 : s.sessionComplete = true := by rw [← e4]; exact hc
      show (checkTimeLimit { s with totalTime := s.totalTime + 1 }).isPlaying = false
      rw [e1]
      exact h hc2

/-- A property that holds initially and is kept by every operation holds after
every sequence of operations. -/
theorem runOps_induction (P : State → Prop) (hstep : ∀ s op, P s → P (runOp s op))
    (ops : List Op) : ∀ s, P s → P (runOps ops s) := by
  induction ops with
  | nil => intro s hs; exact hs
  | cons op ops ih =>
    intro s hs
    exact ih (runOp s op) (hstep s op hs)

theorem runOps_cons (op : Op) (ops : List Op) (s : State) :
    runOps (op :: ops) s = runOps ops (runOp s op) :=
  rfl

theorem runOps_replicate_tick (n : Nat) (s : State) :
    runOps (List.replicate n Op.tick) s = ticks n s := by
  induction n generalizing s with
  | zero => rfl
  | succ n ih =>
    rw [List.replicate_succ', runOps, List.foldl_append]
    show runOp (runOps (List.replicate n Op.tick) s) Op.tick = tick (ticks n s)
    rw [ih]
    rfl

/-- C5: in every state reached from the initial state by a finite sequence of
`togglePlay`, `startWithPreset(m)`, `resetToStart`, `toggleSound`,
`handleTimeLimitChange` (any string) and runs of the interval callback,
`1 ≤ countdown ≤ 4` and `count` is one of 0, 1, 2, 3. -/
theorem C5_countdown_range (ops : List Op) :
    1 ≤ (runOps ops initialState).countdown ∧ (runOps ops initialState).countdown ≤ 4 ∧
      (runOps ops initialState).count ∈ [0, 1, 2, 3] := by
  have h := runOps_induction (fun s => 1 ≤ s.countdown ∧ s.countdown ≤ 4 ∧ s.count < 4)
    runOp_range ops initialState ⟨by decide, by decide, by decide⟩
  obtain ⟨h1, h2, h3⟩ := h
  refine ⟨h1, h2, ?_⟩
  generalize (runOps ops initialState).count = c at h3
  interval_cases c <;> simp

/-- C6: in every state reached from the initial state by a finite sequence of
`togglePlay`, `startWithPreset(m)`, `resetToStart`, `toggleSound`,
`handleTimeLimitChange` (any string) and runs of the interval callback,
`sessionComplete = true` implies `isPlaying = false`. -/
theorem C6_complete_implies_stopped (ops : List Op)
    (hc : (runOps ops initialState).sessionComplete = true) :
    (runOps ops initialState).isPlaying = false :=
  runOps_induction (fun s => s.sessionComplete = true → s.isPlaying = false)
    runOp_complete_stopped ops initialState (fun h => absurd h Bool.false_ne_true) hc

theorem C6_complete_implies_stopped_witness :
    (runOps (Op.startWithPreset 1 :: List.replicate 60 Op.tick) initialState).sessionComplete
        = true ∧
      (runOps (Op.startWithPreset 1 :: List.replicate 60 Op.tick) initialState).isPlaying
        = false :=
  have hrun : runOps (Op.startWithPreset 1 :: List.replicate 60 Op.tick) initialState
      = completed { initialState with timeLimit := numberToString 1 } 60 := by
    rw [runOps_cons, runOps_replicate_tick]
    simp only [runOp]
    rw [startWithPreset_eq_running]
    exact ticks_limited_at _ 1 (by decide) (numberToString_ne_empty one_lt_exponent_bound)
      (parseInt_numberToString one_lt_exponent_bound) 60 (by decide) (by decide) (fun t h _ => by omega)
  have hc : (runOps (Op.startWithPreset 1 :: List.replicate 60 Op.tick)
      initialState).sessionComplete = true := by
    rw [hrun]
    rfl
  ⟨hc, C6_complete_implies_stopped _ hc⟩

/-! ## Completion -/

/-- When the time-limit check leaves the flag set, it was set before or the
limit has just been reached. -/
theorem checkTimeLimit_reached (x : State) (hr : (checkTimeLimit x).timeLimitReached = true) :
    x.timeLimitReached = true ∨
      (x.timeLimit ≠ "" ∧ ∃ limit : Int, parseInt x.timeLimit = some limit ∧
        limit * 60 ≤ (x.totalTime : Int)) := by
  by_cases hpre : x.timeLimitReached = true
  · exact Or.inl hpre
  · right
    have hpre2 : x.timeLimitReached = false := by simpa using hpre
    by_cases hne : x.timeLimit = ""
    · rw [checkTimeLimit_empty x hne] at hr
      exact absurd hr hpre
    · refine ⟨hne, ?_⟩
      cases hparse : parseInt x.timeLimit with
      | none =>
        simp [checkTimeLimit, hne, hpre2, hparse] at hr
      | some limit =>
        refine ⟨limit, rfl, ?_⟩
        by_cases hle : limit * 60 ≤ (x.totalTime : Int)
        · exact hle
        · simp [checkTimeLimit, hne, hpre2, hparse, hle] at hr

/-- The 60-second preset session just before and on its completing tick. -/
theorem preset_one_run (s0 : State) :
    ticks 59 (startWithPreset 1 s0)
        = running { s0 with timeLimit := numberToString 1 } 59 false ∧
      ticks 60 (startWithPreset 1 s0)
        = completed { s0 with timeLimit := numberToString 1 } 60 := by
  rw [startWithPreset_eq_running]
  refine ⟨?_, ?_⟩
  · exact ticks_limited_before _ 1 (by decide) (numberToString_ne_empty one_lt_exponent_bound)
      (parseInt_numberToString one_lt_exponent_bound) 59 (fun k hk hc => by omega)
  · exact ticks_limited_at _ 1 (by decide) (numberToString_ne_empty one_lt_exponent_bound)
      (parseInt_numberToString one_lt_exponent_bound) 60 (by decide) (by decide) (fun t h _ => by omega)

/-- C3, as stated, fails on the run it names: after `startWithPreset(1)` and 59
ticks the session is not complete and `timeLimitReached` is still false, and
tick 60 sets `sessionComplete`. -/
theorem C3_counterexample :
    (ticks 59 (startWithPreset 1 initialState)).sessionComplete = false ∧
      (tick (ticks 59 (startWithPreset 1 initialState))).sessionComplete = true ∧
      (ticks 59 (startWithPreset 1 initialState)).timeLimitReached = false := by
  have h59 := (preset_one_run initialState).1
  have h60 := (preset_one_run initialState).2
  rw [ticks] at h60
  rw [h60, h59]
  exact ⟨rfl, rfl, rfl⟩

/-- C3, amended: if the interval callback takes a state `s` with
`sessionComplete = false` and `count` in `0..3` to a state with
`sessionComplete = true`, then `s.count = 2`, `s.countdown = 1`, the new state
has `count = 3`, `isPlaying = false` and `timeLimitReached = true`, and the flag
was either already set in `s` or is set by this same tick, `timeLimit` being
non-empty and `totalTime + 1` having reached `parseInt(timeLimit) * 60`. After
`startWithPreset(1)` the flag is false after 59 ticks, and tick 60 sets the
flag, `sessionComplete = true` and `isPlaying = false` together. -/
theorem C3_complete_only_at_wait (s s0 : State) (hnc : s.sessionComplete = false)
    (hcount : s.count < 4) (hdone : (tick s).sessionComplete = true) :
    (s.count = 2 ∧ s.countdown = 1 ∧ (tick s).count = 3 ∧ (tick s).isPlaying = false ∧
        (tick s).timeLimitReached = true ∧
        (s.timeLimitReached = true ∨
          (s.timeLimit ≠ "" ∧ ∃ limit : Int, parseInt s.timeLimit = some limit ∧
            limit * 60 ≤ (s.totalTime : Int) + 1))) ∧
      ((ticks 59 (startWithPreset 1 s0)).timeLimitReached = false ∧
        (ticks 59 (startWithPreset 1 s0)).sessionComplete = false ∧
        (ticks 60 (startWithPreset 1 s0)).timeLimitReached = true ∧
        (ticks 60 (startWithPreset 1 s0)).sessionComplete = true ∧
        (ticks 60 (startWithPreset 1 s0)).isPlaying = false) := by
  refine ⟨?_, ?_⟩
  · obtain ⟨_, c2, c3, c4, _, _⟩ := checkTimeLimit_fields { s with totalTime := s.totalTime + 1 }
    have e2 : (checkTimeLimit { s with totalTime := s.totalTime + 1 }).count = s.count := c2
    have e3 : (checkTimeLimit { s with totalTime := s.totalTime + 1 }).countdown = s.countdown :=
      c3
    have e4 : (checkTimeLimit { s with totalTime := s.totalTime + 1 }).sessionComplete = false :=
      c4.trans hnc
    have hflag : (checkTimeLimit { s with totalTime := s.totalTime + 1 }).timeLimitReached = true →
        (s.timeLimitReached = true ∨
          (s.timeLimit ≠ "" ∧ ∃ limit : Int, parseInt s.timeLimit = some limit ∧
            limit * 60 ≤ (s.totalTime : Int) + 1)) := by
      intro hr
      rcases checkTimeLimit_reached _ hr with h | ⟨hne, limit, hp, hle⟩
      · exact Or.inl h
      · refine Or.inr ⟨hne, limit, hp, ?_⟩
        have hcast : (((s.totalTime + 1 : Nat)) : Int) = (s.totalTime : Int) + 1 := by
          push_cast
          rfl
        rw [← hcast]
        exact hle
    revert hdone
    simp only [tick, stepCountdown, e2, e3]
    split_ifs with h1 h3
    · intro _
      have hc2 : s.count = 2 := by omega
      exact ⟨hc2, h1, h3.1, rfl, h3.2, hflag h3.2⟩
    · intro hd
      exact absurd (e4.symm.trans hd) Bool.false_ne_true
    · intro hd
      exact absurd (e4.symm.trans hd) Bool.false_ne_true
  · rw [(preset_one_run s0).1, (preset_one_run s0).2]
    exact ⟨rfl, rfl, rfl, rfl, rfl⟩

theorem C3_complete_only_at_wait_witness :
    (tick { isPlaying := true, count := 2, countdown := 1, totalTime := 59,
            soundEnabled := false, timeLimit := "1", sessionComplete := false,
            timeLimitReached := false }).count = 3 ∧
      (tick { isPlaying := true, count := 2, countdown := 1, totalTime := 59,
              soundEnabled := false, timeLimit := "1", sessionComplete := false,
              timeLimitReached := false }).timeLimitReached = true :=
  have h := C3_complete_only_at_wait
    { isPlaying := true, count := 2, countdown := 1, totalTime := 59,
      soundEnabled := false, timeLimit := "1", sessionComplete := false,
      timeLimitReached := false } initialState rfl (by decide) (by decide)
  ⟨h.1.2.2.1, h.1.2.2.2.2.1⟩

/-- C7, as stated, fails for `togglePlay` and `startWithPreset`: on the completed
state that `startWithPreset(1)` and 60 ticks produce, each of them clears
`sessionComplete`. -/
theorem C7_counterexample :
    (ticks 60 (startWithPreset 1 initialState)).sessionComplete = true ∧
      (ticks 60 (startWithPreset 1 initialState)).isPlaying = false ∧
      (togglePlay (ticks 60 (startWithPreset 1 initialState))).sessionComplete = false ∧
      (startWithPreset 2 (ticks 60 (startWithPreset 1 initialState))).sessionComplete
        = false := by
  rw [(preset_one_run initialState).2]
  exact ⟨rfl, rfl, rfl, rfl⟩

/-- C7, amended: in a state with `sessionComplete = true` and `isPlaying = false`,
`toggleSound`, `handleTimeLimitChange` (any string) and the interval callback
keep `sessionComplete = true`, and the only handler that `render` binds is
`resetToStart`; `togglePlay` and `startWithPreset(m)` are not bound there, and
called on such a state they start a new session with `sessionComplete = false`,
as `resetToStart` also clears it. -/
theorem C7_complete_only_reset_bound (s : State) (hc : s.sessionComplete = true)
    (hplay : s.isPlaying = false) :
    (toggleSound s).sessionComplete = true ∧
      (∀ value, (handleTimeLimitChange value s).sessionComplete = true) ∧
      (tick s).sessionComplete = true ∧
      renderBindings s = [Handler.resetToStart] ∧
      (resetToStart s).sessionComplete = false ∧
      (togglePlay s).sessionComplete = false ∧
      (∀ m, (startWithPreset m s).sessionComplete = false) := by
  refine ⟨hc, fun _ => hc, ?_, ?_, rfl, ?_, fun _ => rfl⟩
  · obtain ⟨_, _, _, c4, _, _⟩ := checkTimeLimit_fields { s with totalTime := s.totalTime + 1 }
    have e4 : (checkTimeLimit { s with totalTime := s.totalTime + 1 }).sessionComplete = true :=
      c4.trans hc
    simp only [tick, stepCountdown]
    split_ifs
    · rfl
    · exact e4
    · exact e4
  · simp [renderBindings, hc]
  · simp [togglePlay, hplay]

theorem C7_complete_only_reset_bound_witness :
    renderBindings (completed initialState 12) = [Handler.resetToStart] ∧
      (tick (completed initialState 12)).sessionComplete = true :=
  have h := C7_complete_only_reset_bound (completed initialState 12) rfl rfl
  ⟨h.2.2.2.1, h.2.2.1⟩

end BoxBreathing
